import Mathlib

/-!
Verification of the MonitorTool sampling-and-trend-analysis engine
(`Containers/MonitorTool/app/{analysis,sampler_mongo,sampler,exporter}.py`).

Numeric values (durations in milliseconds, regression coefficients,
percentiles) are modelled over `ℚ`: the Python code computes with IEEE
floats, but every arithmetic step it performs (sums, products, divisions,
the least-squares normal equations solved by `np.linalg.lstsq` on a
full-column-rank design matrix) is an exact rational operation, so the
rational model is the ideal semantics of the code.  Python `nan`
("unknown duration") is modelled as `Option.none`.  Record identifiers
(Mongo `ObjectId`s / SQL primary keys, compared by the store's native
ordering) are modelled as `Nat`.
-/

namespace MonitorTool

/-- `FitResult` dataclass of `analysis.py`. -/
structure FitResult where
  kind : String
  slope : ℚ
  intercept : ℚ
  r2 : ℚ
  n : Nat
deriving Repr, DecidableEq

/-- Sum of the x components of a point list. -/
def Sx (pts : List (ℚ × ℚ)) : ℚ := (pts.map (fun p => p.1)).sum

/-- Sum of the y components of a point list. -/
def Sy (pts : List (ℚ × ℚ)) : ℚ := (pts.map (fun p => p.2)).sum

/-- Sum of x². -/
def Sxx (pts : List (ℚ × ℚ)) : ℚ := (pts.map (fun p => p.1 * p.1)).sum

/-- Sum of x·y. -/
def Sxy (pts : List (ℚ × ℚ)) : ℚ := (pts.map (fun p => p.1 * p.2)).sum

/-- Number of points, as a rational. -/
def nQ (pts : List (ℚ × ℚ)) : ℚ := (pts.length : ℚ)

/-- Determinant of the 2×2 normal-equation system `n·Sxx − Sx²`
(nonzero exactly when the x values are not all equal, i.e. the design
matrix `[x, 1]` built by `linear_fit` has full column rank). -/
def Dxx (pts : List (ℚ × ℚ)) : ℚ := nQ pts * Sxx pts - Sx pts * Sx pts

/-- Least-squares slope: the solution of the normal equations that
`np.linalg.lstsq` returns for the full-column-rank design matrix
`np.vstack([x, ones]).T` in `analysis.linear_fit`. -/
def slopeQ (pts : List (ℚ × ℚ)) : ℚ :=
  (nQ pts * Sxy pts - Sx pts * Sy pts) / Dxx pts

/-- Least-squares intercept (second component of the `lstsq` solution). -/
def interceptQ (pts : List (ℚ × ℚ)) : ℚ :=
  (Sy pts - slopeQ pts * Sx pts) / nQ pts

/-- Residual sum of squares `((y - (a*x + b)) ** 2).sum()` for an
arbitrary candidate line `y = a·x + b`. -/
def ssRes (pts : List (ℚ × ℚ)) (a b : ℚ) : ℚ :=
  (pts.map (fun p => (p.2 - (a * p.1 + b)) ^ 2)).sum

/-- `y.mean()` of `analysis.py`. -/
def meanY (pts : List (ℚ × ℚ)) : ℚ := Sy pts / nQ pts

/-- Total sum of squares `((y - y.mean()) ** 2).sum()`. -/
def ssTot (pts : List (ℚ × ℚ)) : ℚ :=
  (pts.map (fun p => (p.2 - meanY pts) ^ 2)).sum

/-- `analysis.linear_fit(x, y)`: `None` on fewer than 2 points, else the
least-squares line through the points with
`r2 = 1 - ss_res/ss_tot if ss_tot > 0 else 0.0` and `n = len(x)`.
The paired arrays `x, y` are modelled as one list of points. -/
def linear_fit (pts : List (ℚ × ℚ)) : Option FitResult :=
  if pts.length < 2 then none
  else
    let s := slopeQ pts
    let b := interceptQ pts
    let r2 := if 0 < ssTot pts then 1 - ssRes pts s b / ssTot pts else 0
    some ⟨"linear", s, b, r2, pts.length⟩

/-- `analysis.exponential_fit(x, y)`: keeps the points with `y > 0`
(the numpy mask `y > 0`, which also drops `nan` entries, is applied to
both arrays), returns `None` if fewer than 2 remain, else least-squares
fits `log y` against `x` and reports the log-space slope `b` and
intercept `ln_a` directly with an R² computed on the log data and
`n = len(x2)`.  `np.log` is abstracted as the function parameter `lg`
(the code only ever applies it to strictly positive values). -/
def exponential_fit (lg : ℚ → ℚ) (pts : List (ℚ × ℚ)) : Option FitResult :=
  let pts2 := pts.filter (fun p => decide (0 < p.2))
  if pts2.length < 2 then none
  else
    let lpts := pts2.map (fun p => (p.1, lg p.2))
    let s := slopeQ lpts
    let b := interceptQ lpts
    let r2 := if 0 < ssTot lpts then 1 - ssRes lpts s b / ssTot lpts else 0
    some ⟨"exponential", s, b, r2, pts2.length⟩

/-- The record returned by `analysis.summarize_durations`. -/
structure Summary where
  count : Nat
  mean_ms : Option ℚ
  p50_ms : Option ℚ
  p95_ms : Option ℚ
deriving Repr, DecidableEq

/-- `pandas.Series.quantile(q)` with the default linear interpolation:
with the data sorted ascending and `h = q·(n-1)`, the result is
`s[⌊h⌋] + (h - ⌊h⌋) · (s[⌊h⌋+1] - s[⌊h⌋])` (library behaviour of the
pandas call in `analysis.summarize_durations`). -/
def quantile (l : List ℚ) (q : ℚ) : ℚ :=
  let s := List.insertionSort (· ≤ ·) l
  let h : ℚ := q * ((l.length : ℚ) - 1)
  let i : Nat := (Rat.floor h).toNat
  let g : ℚ := h - (Rat.floor h : ℚ)
  s.getD i 0 + g * (s.getD (i + 1) 0 - s.getD i 0)

/-- `analysis.summarize_durations(durations_ms)`: empty list gives all
null summary fields; otherwise count, arithmetic mean, and the 50th and
95th percentiles by pandas linear interpolation. -/
def summarize_durations (l : List ℚ) : Summary :=
  if l.isEmpty then ⟨0, none, none, none⟩
  else ⟨l.length, some (l.sum / (l.length : ℚ)),
        some (quantile l (1/2)), some (quantile l (19/20))⟩

/-- One upstream document, restricted to the fields the projection in
`sampler_mongo.get_new_docs_with_durations` fetches.  `id` models the
`_id` `ObjectId` (insertion-ordered); a field that is absent or `None`
in the document is `none`.  Timestamps are in seconds, so a datetime
difference `(a - b).total_seconds()` is modelled as `a - b`. -/
structure Doc where
  id : Nat
  processing_time_ms : Option ℚ := none
  duration_ms : Option ℚ := none
  processing_time : Option ℚ := none
  duration : Option ℚ := none
  start_time : Option ℚ := none
  end_time : Option ℚ := none
  queued_at : Option ℚ := none
  created_at : Option ℚ := none
  inserted_at : Option ℚ := none
deriving Repr, DecidableEq

/-- `sampler_mongo._duration_from_doc(doc)`: tries the duration
conventions in priority order (explicit ms field, explicit seconds
field ×1000, start/end timestamp pair, queued/created-or-inserted
timestamp pair) and returns `none` ("unknown") when none applies. -/
def duration_from_doc (d : Doc) : Option ℚ :=
  match d.processing_time_ms with
  | some v => some v
  | none =>
  match d.duration_ms with
  | some v => some v
  | none =>
  match d.processing_time with
  | some v => some (v * 1000)
  | none =>
  match d.duration with
  | some v => some (v * 1000)
  | none =>
  match d.start_time, d.end_time with
  | some st, some et => some ((et - st) * 1000)
  | _, _ =>
  match d.queued_at, d.created_at.orElse (fun _ => d.inserted_at) with
  | some qa, some ca => some ((ca - qa) * 1000)
  | _, _ => none

/-- The query filter of `sampler_mongo.get_new_docs_with_durations`:
`{"_id": {"$gt": last_seen}}` when a watermark is stored, no filter
otherwise.  `last_seen` being a valid stored identifier models the
Python guard `last_seen and len(last_seen) == 24` holding for every
real `str(ObjectId)`. -/
def scanWindow (coll : List Doc) (last_seen : Option Nat) : List Doc :=
  match last_seen with
  | some w => coll.filter (fun d => decide (w < d.id))
  | none => coll

/-- Continuation of `get_new_docs_with_durations`: sort the window
ascending by `_id`, cap at 10000, pair each id with its duration. -/
def get_new_docs_with_durations (coll : List Doc) (last_seen : Option Nat) :
    List (Nat × Option ℚ) :=
  ((List.insertionSort (fun a b => a.id ≤ b.id) (scanWindow coll last_seen)).take 10000).map
    (fun d => (d.id, duration_from_doc d))

/-- One row of the append-only `samples` SQLite table. -/
structure SampleRow where
  ts_utc : Nat
  table_name : String
  total_count : Nat
  new_count : Nat
  mean_ms : Option ℚ
  p50_ms : Option ℚ
  p95_ms : Option ℚ
deriving Repr, DecidableEq

/-- One row of the append-only `new_rows` SQLite table (`duration_ms`
is NULL for an unknown duration). -/
structure NewRowEntry where
  ts_utc : Nat
  table_name : String
  row_id : Nat
  duration_ms : Option ℚ
deriving Repr, DecidableEq

/-- One row of the append-only `fits` SQLite table. -/
structure FitRow where
  ts_utc : Nat
  table_name : String
  kind : String
  slope : ℚ
  intercept : ℚ
  r2 : ℚ
  n : Nat
deriving Repr, DecidableEq

/-- The local SQLite store of the monitor: the `watermarks` table
(primary key `table_name`, value `(last_seen_id, last_seen_ts)`), and
the append-only `samples`, `new_rows` and `fits` tables in insertion
(ROWID) order. -/
structure MonitorState where
  watermarks : List (String × Nat × Nat)
  samples : List SampleRow
  newRows : List NewRowEntry
  fits : List FitRow
deriving Repr, DecidableEq

/-- The store right after the `CREATE TABLE IF NOT EXISTS` statements. -/
def emptyState : MonitorState := ⟨[], [], [], []⟩

/-- `WHERE table_name = t` on a watermark row. -/
def keyIs (t : String) (e : String × Nat × Nat) : Bool := e.1 == t

/-- `sampler_mongo.get_watermark(table)`: the stored `last_seen_id`, or
`None` when the table has no watermark row. -/
def get_watermark (st : MonitorState) (t : String) : Option Nat :=
  (st.watermarks.find? (keyIs t)).map (fun e => e.2.1)

/-- The `DO UPDATE` action of the watermark upsert on one row. -/
def upsertRow (t : String) (last_id ts : Nat) (e : String × Nat × Nat) :
    String × Nat × Nat :=
  if e.1 == t then (t, last_id, ts) else e

/-- `sampler_mongo.upsert_watermark(table, last_id)`: SQLite upsert on
the `table_name` primary key — insert on first use, otherwise
overwrite `last_seen_id` and `last_seen_ts` unconditionally. -/
def upsert_watermark (st : MonitorState) (t : String) (last_id ts : Nat) :
    MonitorState :=
  { st with watermarks :=
      if st.watermarks.any (keyIs t) then
        st.watermarks.map (upsertRow t last_id ts)
      else
        st.watermarks ++ [(t, last_id, ts)] }

/-- `sampler_mongo.record_sample(table, total_count, new_rows)`:
summarises the known (non-`nan`) durations and appends exactly one
`samples` row with `new_rows = len(new_rows)`, then archives every
scanned pair into the `new_rows` table (NULL duration for `nan`). -/
def record_sample (st : MonitorState) (t : String) (ts : Nat) (total : Nat)
    (new_rows : List (Nat × Option ℚ)) : MonitorState :=
  let durations := new_rows.filterMap (fun r => r.2)
  let stats := summarize_durations durations
  { st with
    samples := st.samples ++
      [⟨ts, t, total, new_rows.length, stats.mean_ms, stats.p50_ms, stats.p95_ms⟩],
    newRows := st.newRows ++ new_rows.map (fun r => ⟨ts, t, r.1, r.2⟩) }

/-- `sampler_mongo.compute_and_store_fits(table)`: reads the archived
durations of the table that are not NULL in ROWID order, indexes them
1..N, fits both models and appends one `fits` row per successful fit. -/
def compute_and_store_fits (lg : ℚ → ℚ) (st : MonitorState) (t : String)
    (ts : Nat) : MonitorState :=
  let ys := st.newRows.filterMap
    (fun e => if e.table_name == t then e.duration_ms else none)
  if ys.isEmpty then st
  else
    let pts := (ys.enumFrom 1).map (fun p => ((p.1 : ℚ), p.2))
    let linRows := match linear_fit pts with
      | some f => [FitRow.mk ts t f.kind f.slope f.intercept f.r2 f.n]
      | none => []
    let expRows := match exponential_fit lg pts with
      | some f => [FitRow.mk ts t f.kind f.slope f.intercept f.r2 f.n]
      | none => []
    { st with fits := st.fits ++ linRows ++ expRows }

/-- One table's pass inside the `while True` loop of
`sampler_mongo.Sampler.run`.  `scan` is the outcome of the upstream
query `get_new_docs_with_durations`: `some coll` when the collection is
reachable (with `coll` its current documents), `none` when the query
raises (the `except` path).  `total` is the result of
`get_total_count`, which internally falls back to 0 on failure and
never raises.  On a successful scan the watermark is advanced to the
last id of the batch iff the batch is nonempty, a sample is recorded
and the fits recomputed; on a failed scan only the fallback sample
`record_sample(t, total, [])` is written. -/
def tickTable (lg : ℚ → ℚ) (st : MonitorState) (t : String) (ts : Nat)
    (scan : Option (List Doc)) (total : Nat) : MonitorState :=
  match scan with
  | some coll =>
      let last_id := get_watermark st t
      let nr := get_new_docs_with_durations coll last_id
      let st1 := match nr.getLast? with
        | some r => upsert_watermark st t r.1 ts
        | none => st
      let st2 := record_sample st1 t ts total nr
      compute_and_store_fits lg st2 t ts
  | none => record_sample st t ts total []

/-- One full tick of the Sampler Loop: every tracked table is processed
in order, each with its own upstream outcome (failure isolation: one
table's `none` does not affect the others). -/
def tick (lg : ℚ → ℚ) (tables : List String) (ts : Nat)
    (scan : String → Option (List Doc)) (total : String → Nat)
    (st : MonitorState) : MonitorState :=
  tables.foldl (fun s t => tickTable lg s t ts (scan t) (total t)) st

/-- `n` ticks of the Sampler Loop from the fresh store, with a
per-tick, per-table upstream oracle. -/
def runTicks (lg : ℚ → ℚ) (tables : List String)
    (scans : Nat → String → Option (List Doc))
    (totals : Nat → String → Nat) : Nat → MonitorState
  | 0 => emptyState
  | n + 1 => tick lg tables n (scans n) (totals n) (runTicks lg tables scans totals n)

/-- Number of `samples` rows recorded for a table. -/
def countSamples (st : MonitorState) (t : String) : Nat :=
  (st.samples.filter (fun r => r.table_name == t)).length

/-- A record on which every duration convention fails: no explicit
ms/seconds field, and each timestamp pair missing at least one side. -/
def noDurationFields (d : Doc) : Prop :=
  d.processing_time_ms = none ∧ d.duration_ms = none ∧ d.processing_time = none ∧
  d.duration = none ∧ (d.start_time = none ∨ d.end_time = none) ∧
  (d.queued_at = none ∨ (d.created_at = none ∧ d.inserted_at = none))

/-- The `has_ms` branch of `sampler.get_new_rows_with_duration` in the
SQL variant (`sampler.py`), applied to the result set of its query
(pk ascending past the watermark, `LIMIT 10000`, with the nullable
duration column): the Python comprehension
`[(str(r.pk), float(r.duration_ms)) for r in rows if r.duration_ms is not None]`
drops every row whose duration column is NULL from the returned batch.
The seconds / start-end / queued-created branches filter the same way. -/
def get_new_rows_with_duration_ms (rows : List (Nat × Option ℚ)) : List (Nat × ℚ) :=
  rows.filterMap (fun r => match r.2 with
    | some v => some (r.1, v)
    | none => none)

/-- The fields of a latest-fit row that `exporter._classify` (and the
identical `classify` closure in `sampler_mongo._write_report_md`)
reads: `slope` and `r2`. -/
structure LatestFit where
  slope : ℚ
  r2 : ℚ
deriving Repr, DecidableEq

/-- The linear branch of `exporter._classify`: `"roughly constant"`
when `abs(slope) < 1e-6`, else the sign of the slope decides. -/
def classifyLinearBranch (l : LatestFit) : String :=
  if |l.slope| < 1/1000000 then "roughly constant"
  else if 0 < l.slope then "linear ↑" else "linear ↓"

/-- The exponential branch of `exporter._classify`. -/
def classifyExpBranch (e : LatestFit) : String :=
  if 0 < e.slope then "exponential ↑" else "exponential ↓"

/-- `exporter._classify(dkinds)` over the optional latest linear and
exponential fits: `"insufficient data"` with neither; the linear branch
when a linear fit exists and `L["r2"] >= E["r2"] - 0.02` (or there is
no exponential fit); else the exponential branch. -/
def classify (L E : Option LatestFit) : String :=
  match L, E with
  | none, none => "insufficient data"
  | some l, none => classifyLinearBranch l
  | some l, some e =>
      if e.r2 - 1/50 ≤ l.r2 then classifyLinearBranch l else classifyExpBranch e
  | none, some e => classifyExpBranch e

/-! ### Helper lemmas about the regression sums -/

@[simp] lemma Sx_nil : Sx [] = 0 := rfl

@[simp] lemma Sy_nil : Sy [] = 0 := rfl

@[simp] lemma Sxx_nil : Sxx [] = 0 := rfl

@[simp] lemma Sxy_nil : Sxy [] = 0 := rfl

@[simp] lemma nQ_nil : nQ [] = 0 := rfl

@[simp] lemma Sx_cons (p : ℚ × ℚ) (l : List (ℚ × ℚ)) : Sx (p :: l) = p.1 + Sx l := by
  simp [Sx]

@[simp] lemma Sy_cons (p : ℚ × ℚ) (l : List (ℚ × ℚ)) : Sy (p :: l) = p.2 + Sy l := by
  simp [Sy]

@[simp] lemma Sxx_cons (p : ℚ × ℚ) (l : List (ℚ × ℚ)) : Sxx (p :: l) = p.1 * p.1 + Sxx l := by
  simp [Sxx]

@[simp] lemma Sxy_cons (p : ℚ × ℚ) (l : List (ℚ × ℚ)) : Sxy (p :: l) = p.1 * p.2 + Sxy l := by
  simp [Sxy]

@[simp] lemma nQ_cons (p : ℚ × ℚ) (l : List (ℚ × ℚ)) : nQ (p :: l) = nQ l + 1 := by
  simp [nQ]

lemma sum_affine (pts : List (ℚ × ℚ)) (s b : ℚ) :
    (pts.map (fun p => p.2 - (s * p.1 + b))).sum = Sy pts - s * Sx pts - nQ pts * b := by
  induction pts with
  | nil => simp
  | cons p l ih =>
      simp only [List.map_cons, List.sum_cons, Sy_cons, Sx_cons, nQ_cons]
      linear_combination ih

lemma sum_x_affine (pts : List (ℚ × ℚ)) (s b : ℚ) :
    (pts.map (fun p => p.1 * (p.2 - (s * p.1 + b)))).sum
      = Sxy pts - s * Sxx pts - b * Sx pts := by
  induction pts with
  | nil => simp
  | cons p l ih =>
      simp only [List.map_cons, List.sum_cons, Sxy_cons, Sxx_cons, Sx_cons]
      linear_combination ih

/-- First normal equation: the least-squares residuals sum to zero. -/
lemma sum_resid_zero (pts : List (ℚ × ℚ)) (hn : nQ pts ≠ 0) :
    (pts.map (fun p => p.2 - (slopeQ pts * p.1 + interceptQ pts))).sum = 0 := by
  rw [sum_affine]
  unfold interceptQ
  field_simp

/-- Second normal equation: the residuals are orthogonal to x. -/
lemma sum_x_resid_zero (pts : List (ℚ × ℚ)) (hn : nQ pts ≠ 0) (hD : Dxx pts ≠ 0) :
    (pts.map (fun p => p.1 * (p.2 - (slopeQ pts * p.1 + interceptQ pts)))).sum = 0 := by
  rw [sum_x_affine]
  unfold interceptQ slopeQ Dxx
  unfold Dxx at hD
  field_simp
  ring

/-- Exact decomposition of the residual sum of squares of an arbitrary
candidate line around a reference line. -/
lemma ssRes_decomp (pts : List (ℚ × ℚ)) (s c a b : ℚ) :
    ssRes pts a b = ssRes pts s c
      + 2 * (s - a) * (pts.map (fun p => p.1 * (p.2 - (s * p.1 + c)))).sum
      + 2 * (c - b) * (pts.map (fun p => p.2 - (s * p.1 + c))).sum
      + (pts.map (fun p => ((s - a) * p.1 + (c - b)) ^ 2)).sum := by
  induction pts with
  | nil => simp [ssRes]
  | cons p l ih =>
      simp only [ssRes, List.map_cons, List.sum_cons] at ih ⊢
      linear_combination ih

/-- The closed-form normal-equation solution is a global minimiser of
the residual sum of squares: `linear_fit` really is least squares. -/
lemma ssRes_optimal (pts : List (ℚ × ℚ)) (hn : nQ pts ≠ 0) (hD : Dxx pts ≠ 0)
    (a b : ℚ) :
    ssRes pts (slopeQ pts) (interceptQ pts) ≤ ssRes pts a b := by
  have h := ssRes_decomp pts (slopeQ pts) (interceptQ pts) a b
  rw [sum_resid_zero pts hn, sum_x_resid_zero pts hn hD] at h
  have hsq : 0 ≤ (pts.map (fun p => ((slopeQ pts - a) * p.1 + (interceptQ pts - b)) ^ 2)).sum := by
    apply List.sum_nonneg
    intro x hx
    obtain ⟨p, _, rfl⟩ := List.mem_map.1 hx
    positivity
  linarith

/-- `ssTot` is a sum of squares, hence nonnegative. -/
lemma ssTot_nonneg (pts : List (ℚ × ℚ)) : 0 ≤ ssTot pts := by
  apply List.sum_nonneg
  intro x hx
  obtain ⟨p, _, rfl⟩ := List.mem_map.1 hx
  positivity

/-! ### Helper lemmas about the watermark table -/

lemma upsertRow_of_key (t : String) (id ts : Nat) (e : String × Nat × Nat)
    (h : e.1 = t) : upsertRow t id ts e = (t, id, ts) := by
  simp [upsertRow, h]

lemma upsertRow_of_ne (t : String) (id ts : Nat) (e : String × Nat × Nat)
    (h : ¬ e.1 = t) : upsertRow t id ts e = e := by
  simp [upsertRow, h]

lemma keyIs_true (t : String) (e : String × Nat × Nat) (h : e.1 = t) :
    keyIs t e = true := by simp [keyIs, h]

lemma keyIs_false (t : String) (e : String × Nat × Nat) (h : ¬ e.1 = t) :
    ¬ keyIs t e = true := by simp [keyIs, h]

lemma find_map_upsert_eq (l : List (String × Nat × Nat)) (t : String) (id ts : Nat)
    (h : l.any (keyIs t) = true) :
    (l.map (upsertRow t id ts)).find? (keyIs t) = some (t, id, ts) := by
  induction l with
  | nil => simp at h
  | cons a l ih =>
      rw [List.map_cons]
      by_cases ha : a.1 = t
      · rw [upsertRow_of_key t id ts a ha, List.find?_cons_of_pos _ (keyIs_true t _ rfl)]
      · have h' : l.any (keyIs t) = true := by
          rcases List.any_eq_true.1 h with ⟨e, he, hpe⟩
          rcases List.mem_cons.1 he with rfl | he2
          · exact absurd (by simpa [keyIs] using hpe) ha
          · exact List.any_eq_true.2 ⟨e, he2, hpe⟩
        rw [upsertRow_of_ne t id ts a ha,
          List.find?_cons_of_neg _ (by simpa using keyIs_false t a ha), ih h']

lemma find_map_upsert_ne (l : List (String × Nat × Nat)) (t t2 : String) (id ts : Nat)
    (h2 : t2 ≠ t) :
    (l.map (upsertRow t id ts)).find? (keyIs t2) = l.find? (keyIs t2) := by
  induction l with
  | nil => simp
  | cons a l ih =>
      rw [List.map_cons]
      by_cases ha : a.1 = t
      · have hat2 : ¬ a.1 = t2 := by rw [ha]; exact fun hh => h2 hh.symm
        rw [upsertRow_of_key t id ts a ha,
          List.find?_cons_of_neg _ (by simpa using keyIs_false t2 (t, id, ts) (fun hh => h2 hh.symm)),
          List.find?_cons_of_neg _ (by simpa using keyIs_false t2 a hat2), ih]
      · rw [upsertRow_of_ne t id ts a ha]
        by_cases ha2 : a.1 = t2
        · rw [List.find?_cons_of_pos _ (keyIs_true t2 a ha2),
            List.find?_cons_of_pos _ (keyIs_true t2 a ha2)]
        · rw [List.find?_cons_of_neg _ (by simpa using keyIs_false t2 a ha2),
            List.find?_cons_of_neg _ (by simpa using keyIs_false t2 a ha2), ih]

lemma find_append_single (l : List (String × Nat × Nat)) (t t2 : String) (id ts : Nat)
    (h : l.any (keyIs t) = false) :
    (l ++ [(t, id, ts)]).find? (keyIs t2)
      = if t2 = t then some (t, id, ts) else l.find? (keyIs t2) := by
  induction l with
  | nil =>
      by_cases h2 : t2 = t
      · rw [if_pos h2, List.nil_append,
          List.find?_cons_of_pos _ (keyIs_true t2 (t, id, ts) h2.symm)]
      · rw [if_neg h2, List.nil_append,
          List.find?_cons_of_neg _ (by simpa using keyIs_false t2 (t, id, ts) (fun hh => h2 hh.symm))]
  | cons a l ih =>
      have ha : ¬ a.1 = t := by
        intro hh
        rw [List.any_cons, keyIs_true t a hh, Bool.true_or] at h
        simp at h
      have h' : l.any (keyIs t) = false := by
        rw [List.any_cons] at h
        exact (Bool.or_eq_false_iff.1 h).2
      rw [List.cons_append]
      by_cases ha2 : a.1 = t2
      · have h2 : ¬ t2 = t := fun hh => ha (ha2.trans hh)
        rw [if_neg h2, List.find?_cons_of_pos _ (keyIs_true t2 a ha2),
          List.find?_cons_of_pos _ (keyIs_true t2 a ha2)]
      · rw [List.find?_cons_of_neg _ (by simpa using keyIs_false t2 a ha2), ih h']
        by_cases h2 : t2 = t
        · rw [if_pos h2, if_pos h2]
        · rw [if_neg h2, if_neg h2,
            List.find?_cons_of_neg _ (by simpa using keyIs_false t2 a ha2)]

/-- Effect of the watermark upsert on a subsequent `get_watermark`:
the upserted table reads back the new id, every other table is
untouched. -/
lemma get_watermark_upsert (st : MonitorState) (t t2 : String) (id ts : Nat) :
    get_watermark (upsert_watermark st t id ts) t2
      = if t2 = t then some id else get_watermark st t2 := by
  unfold get_watermark upsert_watermark
  by_cases h : st.watermarks.any (keyIs t)
  · simp only [h, if_true]
    by_cases h2 : t2 = t
    · subst h2
      rw [find_map_upsert_eq _ _ id ts h]
      simp
    · rw [find_map_upsert_ne _ _ _ id ts h2]
      simp [h2]
  · simp only [Bool.not_eq_true] at h
    simp only [h, Bool.false_eq_true, if_false]
    rw [find_append_single _ _ _ id ts h]
    by_cases h2 : t2 = t
    · simp [h2]
    · simp [h2]

/-! ### Preservation lemmas: which tables each write touches -/

lemma watermarks_record_sample (st : MonitorState) (t : String) (ts total : Nat)
    (rows : List (Nat × Option ℚ)) :
    (record_sample st t ts total rows).watermarks = st.watermarks := rfl

lemma watermarks_compute_fits (lg : ℚ → ℚ) (st : MonitorState) (t : String) (ts : Nat) :
    (compute_and_store_fits lg st t ts).watermarks = st.watermarks := by
  unfold compute_and_store_fits
  dsimp only
  split <;> rfl

lemma samples_compute_fits (lg : ℚ → ℚ) (st : MonitorState) (t : String) (ts : Nat) :
    (compute_and_store_fits lg st t ts).samples = st.samples := by
  unfold compute_and_store_fits
  dsimp only
  split <;> rfl

lemma samples_upsert_watermark (st : MonitorState) (t : String) (id ts : Nat) :
    (upsert_watermark st t id ts).samples = st.samples := rfl

lemma samples_record_sample (st : MonitorState) (t : String) (ts total : Nat)
    (rows : List (Nat × Option ℚ)) :
    (record_sample st t ts total rows).samples = st.samples ++
      [⟨ts, t, total, rows.length,
        (summarize_durations (rows.filterMap (fun r => r.2))).mean_ms,
        (summarize_durations (rows.filterMap (fun r => r.2))).p50_ms,
        (summarize_durations (rows.filterMap (fun r => r.2))).p95_ms⟩] := rfl

/-- `record_sample` appends exactly one sample row, for its own table. -/
lemma countSamples_record_sample (st : MonitorState) (t : String) (ts total : Nat)
    (rows : List (Nat × Option ℚ)) (t2 : String) :
    countSamples (record_sample st t ts total rows) t2
      = countSamples st t2 + (if t2 = t then 1 else 0) := by
  unfold countSamples
  rw [samples_record_sample, List.filter_append, List.length_append]
  by_cases h : t2 = t
  · subst h
    simp
  · have : ¬ (t == t2) = true := by simpa using fun hh => h hh.symm
    simp [h, this]

lemma countSamples_compute_fits (lg : ℚ → ℚ) (st : MonitorState) (t : String)
    (ts : Nat) (t2 : String) :
    countSamples (compute_and_store_fits lg st t ts) t2 = countSamples st t2 := by
  unfold countSamples
  rw [samples_compute_fits]

lemma countSamples_upsert (st : MonitorState) (t : String) (id ts : Nat) (t2 : String) :
    countSamples (upsert_watermark st t id ts) t2 = countSamples st t2 := rfl

/-- One table's pass appends exactly one sample row for that table and
none for any other, whether or not the upstream scan succeeded. -/
lemma countSamples_tickTable (lg : ℚ → ℚ) (st : MonitorState) (t : String) (ts : Nat)
    (scan : Option (List Doc)) (total : Nat) (t2 : String) :
    countSamples (tickTable lg st t ts scan total) t2
      = countSamples st t2 + (if t2 = t then 1 else 0) := by
  unfold tickTable
  cases scan with
  | none => exact countSamples_record_sample st t ts total [] t2
  | some coll =>
      dsimp only
      rw [countSamples_compute_fits, countSamples_record_sample]
      cases hl : (get_new_docs_with_durations coll (get_watermark st t)).getLast? with
      | none => rfl
      | some r => rw [countSamples_upsert]

/-- One full tick appends exactly one sample row per tracked table. -/
lemma countSamples_tick (lg : ℚ → ℚ) (tables : List String) (ts : Nat)
    (scan : String → Option (List Doc)) (total : String → Nat) (t : String) :
    tables.Nodup → ∀ st, countSamples (tick lg tables ts scan total st) t
      = countSamples st t + (if t ∈ tables then 1 else 0) := by
  induction tables with
  | nil =>
      intro _ st
      simp [tick]
  | cons a l ih =>
      intro hnd st
      obtain ⟨hal, hl⟩ := List.nodup_cons.1 hnd
      have hrest := ih hl (tickTable lg st a ts (scan a) (total a))
      simp only [tick, List.foldl_cons] at hrest ⊢
      rw [hrest, countSamples_tickTable]
      by_cases hta : t = a
      · subst hta
        have hnotl : t ∉ l := hal
        simp [hnotl]
      · simp [hta, List.mem_cons]

/-! ### Lemmas about the incremental scan -/

lemma mem_get_new_docs (coll : List Doc) (ls : Option Nat) (r : Nat × Option ℚ)
    (hr : r ∈ get_new_docs_with_durations coll ls) :
    ∃ d ∈ scanWindow coll ls, r = (d.id, duration_from_doc d) := by
  unfold get_new_docs_with_durations at hr
  obtain ⟨d, hd, rfl⟩ := List.mem_map.1 hr
  have hd2 : d ∈ List.insertionSort (fun a b => a.id ≤ b.id) (scanWindow coll ls) :=
    List.mem_of_mem_take hd
  exact ⟨d, (List.perm_insertionSort _ _).mem_iff.1 hd2, rfl⟩

lemma mem_scanWindow_some (coll : List Doc) (w : Nat) (d : Doc)
    (hd : d ∈ scanWindow coll (some w)) : w < d.id := by
  unfold scanWindow at hd
  exact of_decide_eq_true (List.mem_filter.1 hd).2

lemma length_get_new_docs (coll : List Doc) (ls : Option Nat) :
    (get_new_docs_with_durations coll ls).length
      = min 10000 (scanWindow coll ls).length := by
  unfold get_new_docs_with_durations
  rw [List.length_map, List.length_take, (List.perm_insertionSort _ _).length_eq]

lemma get_new_docs_complete (coll : List Doc) (ls : Option Nat) (d : Doc)
    (hd : d ∈ scanWindow coll ls) (hcap : coll.length ≤ 10000) :
    (d.id, duration_from_doc d) ∈ get_new_docs_with_durations coll ls := by
  unfold get_new_docs_with_durations
  have hlen : (List.insertionSort (fun a b => a.id ≤ b.id) (scanWindow coll ls)).length ≤ 10000 := by
    rw [(List.perm_insertionSort _ _).length_eq]
    calc (scanWindow coll ls).length ≤ coll.length := by
          unfold scanWindow
          cases ls with
          | none => exact le_refl _
          | some w => exact List.length_filter_le _ _
      _ ≤ 10000 := hcap
  rw [List.take_of_length_le hlen]
  exact List.mem_map.2 ⟨d, (List.perm_insertionSort _ _).mem_iff.2 hd, rfl⟩

lemma sorted_get_new_docs (coll : List Doc) (ls : Option Nat) :
    List.Sorted (fun a b : Nat × Option ℚ => a.1 ≤ b.1)
      (get_new_docs_with_durations coll ls) := by
  haveI : IsTotal Doc (fun a b => a.id ≤ b.id) := ⟨fun a b => Nat.le_total _ _⟩
  haveI : IsTrans Doc (fun a b => a.id ≤ b.id) := ⟨fun a b c => Nat.le_trans⟩
  have hs : List.Sorted (fun a b : Doc => a.id ≤ b.id)
      (List.insertionSort (fun a b => a.id ≤ b.id) (scanWindow coll ls)) :=
    List.sorted_insertionSort _ _
  have ht : List.Sorted (fun a b : Doc => a.id ≤ b.id)
      ((List.insertionSort (fun a b => a.id ≤ b.id) (scanWindow coll ls)).take 10000) :=
    List.Pairwise.sublist (List.take_sublist _ _) hs
  exact List.Pairwise.map _ (fun a b hab => hab) ht

lemma get_watermark_record_sample (st : MonitorState) (t : String) (ts total : Nat)
    (rows : List (Nat × Option ℚ)) (t2 : String) :
    get_watermark (record_sample st t ts total rows) t2 = get_watermark st t2 := rfl

lemma get_watermark_compute_fits (lg : ℚ → ℚ) (st : MonitorState) (t : String)
    (ts : Nat) (t2 : String) :
    get_watermark (compute_and_store_fits lg st t ts) t2 = get_watermark st t2 := by
  unfold get_watermark
  rw [watermarks_compute_fits]

/-! ### Claim theorems -/

/-- C2.  Never re-scanned: once the stored watermark `w` is at or past
an identifier `id`, no subsequent incremental scan returns `id` (the
query keeps only records with identifier strictly greater than `w`). -/
theorem watermark_never_rescanned (coll : List Doc) (w id : Nat) (dur : Option ℚ)
    (hle : id ≤ w) : (id, dur) ∉ get_new_docs_with_durations coll (some w) := by
  intro hmem
  obtain ⟨d, hd, heq⟩ := mem_get_new_docs coll (some w) (id, dur) hmem
  have hgt : w < d.id := mem_scanWindow_some coll w d hd
  have hid : id = d.id := congrArg Prod.fst heq
  omega

/-- Witness for C2: a document with id 3 is not returned when the
watermark is 5, instantiated through `watermark_never_rescanned`. -/
theorem watermark_never_rescanned_witness :
    ((3 : Nat), (none : Option ℚ)) ∉
      get_new_docs_with_durations [{ id := 3 }, { id := 5 }] (some 5) :=
  watermark_never_rescanned [{ id := 3 }, { id := 5 }] 5 3 none (by decide)

/-- C4.  Watermark advance is idempotent: replaying
`advance(table, id)` (the SQLite upsert) with the same `id` leaves
`get(table)` — in fact `get` of every table — unchanged, whatever the
two write timestamps are. -/
theorem advance_idempotent (st : MonitorState) (t : String) (id ts1 ts2 : Nat)
    (t2 : String) :
    get_watermark (upsert_watermark (upsert_watermark st t id ts1) t id ts2) t2
      = get_watermark (upsert_watermark st t id ts1) t2 := by
  rw [get_watermark_upsert, get_watermark_upsert]
  by_cases h : t2 = t
  · simp [h]
  · simp [h]

/-- C1.  Gap-free sampling: every pass of one table inside a tick
appends exactly one `samples` row for that table — also when the
upstream scan fails (`scan = none`, the fallback
`record_sample(t, total, [])` path) — and therefore, for any tracked
table, after `N` ticks of the loop the number of its Sample rows is
exactly `N`, regardless of the per-tick upstream availability oracle. -/
theorem gap_free_sampling :
    (∀ (lg : ℚ → ℚ) (st : MonitorState) (t : String) (ts : Nat)
       (scan : Option (List Doc)) (total : Nat),
       countSamples (tickTable lg st t ts scan total) t = countSamples st t + 1) ∧
    (∀ (lg : ℚ → ℚ) (tables : List String)
       (scans : Nat → String → Option (List Doc)) (totals : Nat → String → Nat)
       (t : String) (N : Nat), tables.Nodup → t ∈ tables →
       countSamples (runTicks lg tables scans totals N) t = N) := by
  constructor
  · intro lg st t ts scan total
    rw [countSamples_tickTable]
    simp
  · intro lg tables scans totals t N hnd hmem
    induction N with
    | zero => rfl
    | succ n ih =>
        unfold runTicks
        rw [countSamples_tick lg tables n (scans n) (totals n) t hnd, ih]
        simp [hmem]

/-- Witness for C1: two tracked tables, three ticks with the upstream
always unreachable — the `files` table still has exactly three sample
rows. -/
theorem gap_free_sampling_witness :
    ["files", "chunks"].Nodup ∧ "files" ∈ ["files", "chunks"] ∧
    countSamples (runTicks (fun q => q) ["files", "chunks"]
      (fun _ _ => none) (fun _ _ => 0) 3) "files" = 3 :=
  ⟨by decide, by decide,
    gap_free_sampling.2 (fun q => q) ["files", "chunks"]
      (fun _ _ => none) (fun _ _ => 0) "files" 3 (by decide) (by decide)⟩

/-- C3.  Watermark advancement rule: in a poll of table `t`, the
watermark is unchanged when the scan fails or returns no new records,
and is set to the identifier of the last element of the returned batch
when the scan returns at least one record; the batch itself is sorted
ascending by identifier, so that last element is the highest-ordered
one. -/
theorem watermark_advancement_rule (lg : ℚ → ℚ) (st : MonitorState) (t : String)
    (ts : Nat) (coll : List Doc) (total : Nat) :
    (get_watermark (tickTable lg st t ts none total) t = get_watermark st t) ∧
    (get_new_docs_with_durations coll (get_watermark st t) = [] →
      get_watermark (tickTable lg st t ts (some coll) total) t = get_watermark st t) ∧
    (∀ r, (get_new_docs_with_durations coll (get_watermark st t)).getLast? = some r →
      get_watermark (tickTable lg st t ts (some coll) total) t = some r.1) ∧
    List.Sorted (fun a b : Nat × Option ℚ => a.1 ≤ b.1)
      (get_new_docs_with_durations coll (get_watermark st t)) := by
  refine ⟨rfl, ?_, ?_, sorted_get_new_docs coll _⟩
  · intro hnil
    unfold tickTable
    dsimp only
    rw [hnil]
    rw [get_watermark_compute_fits, get_watermark_record_sample]
    rfl
  · intro r hr
    unfold tickTable
    dsimp only
    rw [hr]
    rw [get_watermark_compute_fits, get_watermark_record_sample, get_watermark_upsert]
    simp

/-- Witness for C3: starting from the fresh store, scanning a
collection holding one document with id 5 advances the `files`
watermark to 5, via `watermark_advancement_rule`. -/
theorem watermark_advancement_rule_witness :
    (get_new_docs_with_durations [{ id := 5 }] (get_watermark emptyState "files")).getLast?
        = some ((5 : Nat), (none : Option ℚ)) ∧
    get_watermark (tickTable (fun q => q) emptyState "files" 0 (some [{ id := 5 }]) 7) "files"
        = some 5 :=
  ⟨by decide,
    (watermark_advancement_rule (fun q => q) emptyState "files" 0 [{ id := 5 }] 7).2.2.1
      (5, none) (by decide)⟩

lemma duration_from_doc_none (d : Doc) (h : noDurationFields d) :
    duration_from_doc d = none := by
  obtain ⟨h1, h2, h3, h4, h5, h6⟩ := h
  unfold duration_from_doc
  rw [h1, h2, h3, h4]
  rcases h5 with h5 | h5
  · rw [h5]
    rcases h6 with h6 | ⟨h6a, h6b⟩
    · rw [h6]
    · rw [h6a, h6b]
      cases d.queued_at <;> rfl
  · rw [h5]
    cases d.start_time <;>
      · rcases h6 with h6 | ⟨h6a, h6b⟩
        · rw [h6]
        · rw [h6a, h6b]
          cases d.queued_at <;> rfl

lemma length_sql_ms_batch (rows : List (Nat × Option ℚ)) :
    (get_new_rows_with_duration_ms rows).length
      = (rows.filterMap (fun r => r.2)).length := by
  induction rows with
  | nil => rfl
  | cons r l ih =>
      unfold get_new_rows_with_duration_ms at ih ⊢
      cases h : r.2 with
      | none => simpa [List.filterMap_cons, h] using ih
      | some v => simpa [List.filterMap_cons, h] using ih

/-- C5 (amended).  Duration extraction on partial data, per variant.
Mongo sampler (`sampler_mongo.py`): a record whose duration fields are
all absent extracts to "unknown" (`none`) and the poll is never shrunk
by it — the batch length depends only on the watermark window and the
10000 cap, every in-window record appears in the batch paired with its
(possibly unknown) duration, the recorded sample counts the full batch
in `new_count`, and a nonempty batch advances the watermark regardless
of the durations in it.  SQL sampler (`sampler.py`): an absent field
never fails the poll either, but a scanned row whose active duration
column is NULL is dropped from the returned batch — its batch holds
exactly the rows with a non-NULL duration. -/
theorem unknown_duration_kept :
    (∀ (coll : List Doc) (ls : Option Nat),
       (get_new_docs_with_durations coll ls).length
         = min 10000 (scanWindow coll ls).length) ∧
    (∀ d : Doc, noDurationFields d → duration_from_doc d = none) ∧
    (∀ (coll : List Doc) (ls : Option Nat) (d : Doc),
       d ∈ scanWindow coll ls → coll.length ≤ 10000 →
       (d.id, duration_from_doc d) ∈ get_new_docs_with_durations coll ls) ∧
    (∀ (st : MonitorState) (t : String) (ts total : Nat)
       (rows : List (Nat × Option ℚ)),
       (record_sample st t ts total rows).samples = st.samples ++
         [⟨ts, t, total, rows.length,
           (summarize_durations (rows.filterMap (fun r => r.2))).mean_ms,
           (summarize_durations (rows.filterMap (fun r => r.2))).p50_ms,
           (summarize_durations (rows.filterMap (fun r => r.2))).p95_ms⟩]) ∧
    (∀ (lg : ℚ → ℚ) (st : MonitorState) (t : String) (ts : Nat) (coll : List Doc)
       (total : Nat) (r : Nat × Option ℚ),
       (get_new_docs_with_durations coll (get_watermark st t)).getLast? = some r →
       get_watermark (tickTable lg st t ts (some coll) total) t = some r.1) ∧
    (∀ rows : List (Nat × Option ℚ),
       (get_new_rows_with_duration_ms rows).length
         = (rows.filterMap (fun r => r.2)).length) := by
  refine ⟨length_get_new_docs, duration_from_doc_none, get_new_docs_complete,
    samples_record_sample, ?_, length_sql_ms_batch⟩
  intro lg st t ts coll total r hr
  unfold tickTable
  dsimp only
  rw [hr]
  rw [get_watermark_compute_fits, get_watermark_record_sample, get_watermark_upsert]
  simp

/-- Counterexample to C5 as stated: in the SQL sampler a scanned row
with a NULL duration column (here row 2) is not "still included in the
poll's batch" — the returned batch of
`get_new_rows_with_duration` keeps only row 1, so the poll of two
scanned rows shrank to one and row 2 is not in the batch. -/
theorem sql_null_duration_dropped :
    get_new_rows_with_duration_ms [(1, some 10), (2, none)] = [(1, 10)] ∧
    (2 : Nat) ∉ (get_new_rows_with_duration_ms [(1, some 10), (2, none)]).map Prod.fst ∧
    (get_new_rows_with_duration_ms [(1, some 10), (2, none)]).length = 1 := by
  refine ⟨rfl, ?_, rfl⟩
  intro h
  simp [get_new_rows_with_duration_ms, List.filterMap_cons] at h

/-- Witness for C5: a document with only an id extracts an unknown
duration yet is still part of the scan batch. -/
theorem unknown_duration_kept_witness :
    noDurationFields { id := 7 } ∧
    (({ id := 7 } : Doc) ∈ scanWindow [{ id := 7 }] none) ∧
    duration_from_doc { id := 7 } = none ∧
    ((7 : Nat), duration_from_doc { id := 7 }) ∈
      get_new_docs_with_durations [{ id := 7 }] none :=
  ⟨⟨rfl, rfl, rfl, rfl, Or.inl rfl, Or.inl rfl⟩,
    by simp [scanWindow],
    unknown_duration_kept.2.1 { id := 7 } ⟨rfl, rfl, rfl, rfl, Or.inl rfl, Or.inl rfl⟩,
    unknown_duration_kept.2.2.1 [{ id := 7 }] none { id := 7 }
      (by simp [scanWindow]) (by decide)⟩

/-- C8.  Classification rule: linear is preferred unless the
exponential R² exceeds the linear R² by more than 0.02 (the code's
`L["r2"] >= E["r2"] - 0.02` test); a selected linear fit with
`|slope| < 1e-6` is "roughly constant", otherwise the sign of the
slope decides; with no fit at all the result is "insufficient data";
and the two boundary examples of the spec. -/
theorem classification_rule :
    (classify none none = "insufficient data") ∧
    (∀ l e : LatestFit, ¬ ((1 : ℚ)/50 < e.r2 - l.r2) →
       classify (some l) (some e) = classifyLinearBranch l) ∧
    (∀ l e : LatestFit, (1 : ℚ)/50 < e.r2 - l.r2 →
       classify (some l) (some e) = classifyExpBranch e) ∧
    (∀ l : LatestFit, classify (some l) none = classifyLinearBranch l) ∧
    (∀ l : LatestFit, |l.slope| < 1/1000000 →
       classifyLinearBranch l = "roughly constant") ∧
    (∀ l : LatestFit, ¬ |l.slope| < 1/1000000 → 0 < l.slope →
       classifyLinearBranch l = "linear ↑") ∧
    (∀ l : LatestFit, ¬ |l.slope| < 1/1000000 → ¬ 0 < l.slope →
       classifyLinearBranch l = "linear ↓") ∧
    (classify (some ⟨1, 9/10⟩) (some ⟨1, 91/100⟩) = "linear ↑") ∧
    (classify (some ⟨1, 8/10⟩) (some ⟨1, 95/100⟩) = "exponential ↑") := by
  refine ⟨rfl, ?_, ?_, fun l => rfl, ?_, ?_, ?_, ?_, ?_⟩
  · intro l e h
    simp only [classify]
    rw [if_pos (by linarith [not_lt.1 h])]
  · intro l e h
    simp only [classify]
    rw [if_neg (by intro hc; linarith)]
  · intro l h
    unfold classifyLinearBranch
    rw [if_pos h]
  · intro l h1 h2
    unfold classifyLinearBranch
    rw [if_neg h1, if_pos h2]
  · intro l h1 h2
    unfold classifyLinearBranch
    rw [if_neg h1, if_neg h2]
  · simp only [classify, classifyLinearBranch]
    norm_num
  · simp only [classify, classifyExpBranch]
    norm_num

/-- Witness for C8: the 0.90 / 0.91 boundary example instantiated
through the general margin clause of `classification_rule`. -/
theorem classification_rule_witness :
    ¬ ((1 : ℚ)/50 < (91/100 : ℚ) - 9/10) ∧
    classify (some ⟨1, 9/10⟩) (some ⟨1, 91/100⟩) = classifyLinearBranch ⟨1, 9/10⟩ :=
  ⟨by norm_num, classification_rule.2.1 ⟨1, 9/10⟩ ⟨1, 91/100⟩ (by norm_num)⟩

/-- C9.  Duration summary: the empty list gives all-null mean and
percentiles; a nonempty list gives the arithmetic mean and the p50/p95
of pandas linear interpolation between closest ranks; the spec example
`[10,20,30,40,100]` yields mean 40, p50 = 30 (and p95 = 88 under the
interpolation convention), and an example where the interpolation is
strictly between two ranks: p50 of `[10,20,30,40]` is 25. -/
theorem summarize_durations_correct :
    (summarize_durations [] = ⟨0, none, none, none⟩) ∧
    (∀ l : List ℚ, l ≠ [] → summarize_durations l =
       ⟨l.length, some (l.sum / (l.length : ℚ)),
        some (quantile l (1/2)), some (quantile l (19/20))⟩) ∧
    (summarize_durations [10, 20, 30, 40, 100] = ⟨5, some 40, some 30, some 88⟩) ∧
    (quantile [10, 20, 30, 40] (1/2) = 25) := by
  refine ⟨rfl, ?_, ?_, ?_⟩
  · intro l h
    unfold summarize_durations
    rw [if_neg (by simpa using h)]
  · unfold summarize_durations quantile
    norm_num [List.insertionSort, List.orderedInsert, Rat.floor,
      show Int.toNat 2 = 2 from rfl, show Int.toNat 3 = 3 from rfl,
      List.getElem_cons_succ, List.getElem_cons_zero]
  · unfold quantile
    norm_num [List.insertionSort, List.orderedInsert, Rat.floor,
      show Int.toNat 1 = 1 from rfl,
      List.getElem_cons_succ, List.getElem_cons_zero]

/-- Witness for C9: the nonempty clause of
`summarize_durations_correct` applied to the spec's example list. -/
theorem summarize_durations_correct_witness :
    ([10, 20, 30, 40, 100] : List ℚ) ≠ [] ∧
    summarize_durations [10, 20, 30, 40, 100] =
      ⟨([10, 20, 30, 40, 100] : List ℚ).length,
       some (([10, 20, 30, 40, 100] : List ℚ).sum /
         ((([10, 20, 30, 40, 100] : List ℚ).length : ℚ))),
       some (quantile [10, 20, 30, 40, 100] (1/2)),
       some (quantile [10, 20, 30, 40, 100] (19/20))⟩ :=
  ⟨by simp, summarize_durations_correct.2.1 [10, 20, 30, 40, 100] (by simp)⟩

/-- C10.  The exponential fit's reported `n` is the number of
strictly-positive durations, not the length of the whole series, so a
series containing a non-positive value (with at least two positive
ones) gets an exponential `n` strictly below the linear `n`. -/
theorem exponential_fit_sample_count (lg : ℚ → ℚ) (pts : List (ℚ × ℚ))
    (h2 : 2 ≤ (pts.filter (fun p => decide (0 < p.2))).length)
    (hnp : ∃ p ∈ pts, p.2 ≤ 0) :
    ∃ f g, exponential_fit lg pts = some f ∧ linear_fit pts = some g ∧
      f.n = (pts.filter (fun p => decide (0 < p.2))).length ∧
      g.n = pts.length ∧ f.n < g.n := by
  have hflt : (pts.filter (fun p => decide (0 < p.2))).length < pts.length := by
    obtain ⟨p, hp, hple⟩ := hnp
    exact List.length_filter_lt_length_iff_exists.mpr
      ⟨p, hp, by simpa using not_lt.2 hple⟩
  have he : ∃ f, exponential_fit lg pts = some f ∧
      f.n = (pts.filter (fun p => decide (0 < p.2))).length := by
    unfold exponential_fit
    dsimp only
    rw [if_neg (by omega)]
    exact ⟨_, rfl, rfl⟩
  have hg : ∃ g, linear_fit pts = some g ∧ g.n = pts.length := by
    unfold linear_fit
    rw [if_neg (by omega)]
    exact ⟨_, rfl, rfl⟩
  obtain ⟨f, hf, hfn⟩ := he
  obtain ⟨g, hgg, hgn⟩ := hg
  exact ⟨f, g, hf, hgg, hfn, hgn, by omega⟩

/-- Witness for C10: the series `[(1,1),(2,1),(3,0)]` has two positive
durations and one non-positive one. -/
theorem exponential_fit_sample_count_witness :
    2 ≤ (([((1 : ℚ), (1 : ℚ)), (2, 1), (3, 0)]).filter
          (fun p => decide (0 < p.2))).length ∧
    (∃ p ∈ [((1 : ℚ), (1 : ℚ)), (2, 1), (3, 0)], p.2 ≤ 0) ∧
    (∃ f g, exponential_fit (fun q => q) [((1 : ℚ), (1 : ℚ)), (2, 1), (3, 0)] = some f ∧
      linear_fit [((1 : ℚ), (1 : ℚ)), (2, 1), (3, 0)] = some g ∧
      f.n = (([((1 : ℚ), (1 : ℚ)), (2, 1), (3, 0)]).filter
              (fun p => decide (0 < p.2))).length ∧
      g.n = 3 ∧ f.n < g.n) :=
  ⟨by norm_num [List.filter],
   ⟨(3, 0), by simp, by norm_num⟩,
   exponential_fit_sample_count (fun q => q) _
     (by norm_num [List.filter]) ⟨(3, 0), by simp, by norm_num⟩⟩

/-- C6.  Linear fit correctness: fewer than 2 points gives `None`;
otherwise the returned slope and intercept are the (unique, since the
normal-equation determinant is nonzero) ordinary-least-squares
minimisers of the residual sum of squares, `r2 = 1 - SS_res/SS_tot`
with the constant-series case (`SS_tot = 0`) defined as 0, and
`n = len(x)`; and on the noiseless series `y = 3x + 5`, `x = 1..10`,
the fit is exactly slope 3, intercept 5, R² = 1. -/
theorem linear_fit_ols :
    (∀ pts : List (ℚ × ℚ), pts.length < 2 → linear_fit pts = none) ∧
    (∀ pts : List (ℚ × ℚ), 2 ≤ pts.length → Dxx pts ≠ 0 →
       ∃ f, linear_fit pts = some f ∧ f.kind = "linear" ∧
         f.slope = slopeQ pts ∧ f.intercept = interceptQ pts ∧
         (∀ a b : ℚ, ssRes pts f.slope f.intercept ≤ ssRes pts a b) ∧
         f.r2 = (if 0 < ssTot pts then 1 - ssRes pts f.slope f.intercept / ssTot pts else 0) ∧
         (ssTot pts = 0 → f.r2 = 0) ∧ f.n = pts.length) ∧
    linear_fit [((1 : ℚ), (8 : ℚ)), (2, 11), (3, 14), (4, 17), (5, 20),
        (6, 23), (7, 26), (8, 29), (9, 32), (10, 35)]
      = some ⟨"linear", 3, 5, 1, 10⟩ := by
  refine ⟨?_, ?_, ?_⟩
  · intro pts hlt
    unfold linear_fit
    rw [if_pos hlt]
  · intro pts h2 hD
    have hn : nQ pts ≠ 0 := by
      unfold nQ
      exact_mod_cast (by omega : pts.length ≠ 0)
    unfold linear_fit
    dsimp only
    rw [if_neg (by omega)]
    refine ⟨_, rfl, rfl, rfl, rfl, fun a b => ssRes_optimal pts hn hD a b, rfl, ?_, rfl⟩
    intro h0
    dsimp only
    rw [h0]
    simp
  · unfold linear_fit
    norm_num [slopeQ, interceptQ, ssRes, ssTot, meanY, Sx, Sy, Sxx, Sxy, nQ, Dxx]

/-- Witness for C6: the general OLS clause of `linear_fit_ols`
instantiated on the ten-point series `y = 3x + 5`. -/
theorem linear_fit_ols_witness :
    2 ≤ ([((1 : ℚ), (8 : ℚ)), (2, 11), (3, 14), (4, 17), (5, 20),
        (6, 23), (7, 26), (8, 29), (9, 32), (10, 35)]).length ∧
    Dxx [((1 : ℚ), (8 : ℚ)), (2, 11), (3, 14), (4, 17), (5, 20),
        (6, 23), (7, 26), (8, 29), (9, 32), (10, 35)] ≠ 0 ∧
    (∃ f, linear_fit [((1 : ℚ), (8 : ℚ)), (2, 11), (3, 14), (4, 17), (5, 20),
          (6, 23), (7, 26), (8, 29), (9, 32), (10, 35)] = some f ∧
      f.kind = "linear" ∧
      f.slope = slopeQ [((1 : ℚ), (8 : ℚ)), (2, 11), (3, 14), (4, 17), (5, 20),
          (6, 23), (7, 26), (8, 29), (9, 32), (10, 35)] ∧
      f.intercept = interceptQ [((1 : ℚ), (8 : ℚ)), (2, 11), (3, 14), (4, 17), (5, 20),
          (6, 23), (7, 26), (8, 29), (9, 32), (10, 35)] ∧
      (∀ a b : ℚ,
        ssRes [((1 : ℚ), (8 : ℚ)), (2, 11), (3, 14), (4, 17), (5, 20),
            (6, 23), (7, 26), (8, 29), (9, 32), (10, 35)] f.slope f.intercept ≤
          ssRes [((1 : ℚ), (8 : ℚ)), (2, 11), (3, 14), (4, 17), (5, 20),
            (6, 23), (7, 26), (8, 29), (9, 32), (10, 35)] a b) ∧
      f.r2 = (if 0 < ssTot [((1 : ℚ), (8 : ℚ)), (2, 11), (3, 14), (4, 17), (5, 20),
            (6, 23), (7, 26), (8, 29), (9, 32), (10, 35)] then
          1 - ssRes [((1 : ℚ), (8 : ℚ)), (2, 11), (3, 14), (4, 17), (5, 20),
              (6, 23), (7, 26), (8, 29), (9, 32), (10, 35)] f.slope f.intercept /
            ssTot [((1 : ℚ), (8 : ℚ)), (2, 11), (3, 14), (4, 17), (5, 20),
              (6, 23), (7, 26), (8, 29), (9, 32), (10, 35)]
        else 0) ∧
      (ssTot [((1 : ℚ), (8 : ℚ)), (2, 11), (3, 14), (4, 17), (5, 20),
          (6, 23), (7, 26), (8, 29), (9, 32), (10, 35)] = 0 → f.r2 = 0) ∧
      f.n = ([((1 : ℚ), (8 : ℚ)), (2, 11), (3, 14), (4, 17), (5, 20),
          (6, 23), (7, 26), (8, 29), (9, 32), (10, 35)]).length) :=
  ⟨by simp, by norm_num [Dxx, nQ, Sxx, Sx],
    linear_fit_ols.2.1 _ (by simp) (by norm_num [Dxx, nQ, Sxx, Sx])⟩

/-- C7.  Exponential fit: the series is first filtered to strictly
positive y-values; fewer than 2 survivors gives `None`; otherwise the
reported slope and intercept are exactly the least-squares line of the
log-transformed filtered series (log-space, not back-transformed),
the R² is the one of the log-space fit, and `n` counts the filtered
points. -/
theorem exponential_fit_logspace (lg : ℚ → ℚ) (pts : List (ℚ × ℚ)) :
    ((pts.filter (fun p => decide (0 < p.2))).length < 2 →
      exponential_fit lg pts = none) ∧
    (2 ≤ (pts.filter (fun p => decide (0 < p.2))).length →
      ∃ f, exponential_fit lg pts = some f ∧ f.kind = "exponential" ∧
        f.slope = slopeQ ((pts.filter (fun p => decide (0 < p.2))).map
            (fun p => (p.1, lg p.2))) ∧
        f.intercept = interceptQ ((pts.filter (fun p => decide (0 < p.2))).map
            (fun p => (p.1, lg p.2))) ∧
        f.r2 = (if 0 < ssTot ((pts.filter (fun p => decide (0 < p.2))).map
              (fun p => (p.1, lg p.2))) then
            1 - ssRes ((pts.filter (fun p => decide (0 < p.2))).map
                (fun p => (p.1, lg p.2))) f.slope f.intercept /
              ssTot ((pts.filter (fun p => decide (0 < p.2))).map
                (fun p => (p.1, lg p.2)))
          else 0) ∧
        f.n = (pts.filter (fun p => decide (0 < p.2))).length ∧
        (Dxx ((pts.filter (fun p => decide (0 < p.2))).map (fun p => (p.1, lg p.2))) ≠ 0 →
          ∀ a b : ℚ,
            ssRes ((pts.filter (fun p => decide (0 < p.2))).map (fun p => (p.1, lg p.2)))
                f.slope f.intercept ≤
              ssRes ((pts.filter (fun p => decide (0 < p.2))).map (fun p => (p.1, lg p.2)))
                a b)) := by
  constructor
  · intro hlt
    unfold exponential_fit
    dsimp only
    rw [if_pos hlt]
  · intro h2
    have hn : nQ ((pts.filter (fun p => decide (0 < p.2))).map (fun p => (p.1, lg p.2))) ≠ 0 := by
      unfold nQ
      rw [List.length_map]
      exact_mod_cast (by omega : (pts.filter (fun p => decide (0 < p.2))).length ≠ 0)
    unfold exponential_fit
    dsimp only
    rw [if_neg (by omega)]
    exact ⟨_, rfl, rfl, rfl, rfl, rfl, rfl,
      fun hD a b => ssRes_optimal _ hn hD a b⟩

/-- Witness for C7: two positive points survive the filter and the fit
exists, via `exponential_fit_logspace`. -/
theorem exponential_fit_logspace_witness :
    2 ≤ (([((1 : ℚ), (2 : ℚ)), (2, 3)]).filter (fun p => decide (0 < p.2))).length ∧
    (∃ f, exponential_fit (fun q => q) [((1 : ℚ), (2 : ℚ)), (2, 3)] = some f ∧
      f.kind = "exponential" ∧
      f.slope = slopeQ ((([((1 : ℚ), (2 : ℚ)), (2, 3)]).filter
          (fun p => decide (0 < p.2))).map (fun p => (p.1, (fun q : ℚ => q) p.2))) ∧
      f.intercept = interceptQ ((([((1 : ℚ), (2 : ℚ)), (2, 3)]).filter
          (fun p => decide (0 < p.2))).map (fun p => (p.1, (fun q : ℚ => q) p.2))) ∧
      f.r2 = (if 0 < ssTot ((([((1 : ℚ), (2 : ℚ)), (2, 3)]).filter
            (fun p => decide (0 < p.2))).map (fun p => (p.1, (fun q : ℚ => q) p.2))) then
          1 - ssRes ((([((1 : ℚ), (2 : ℚ)), (2, 3)]).filter
              (fun p => decide (0 < p.2))).map (fun p => (p.1, (fun q : ℚ => q) p.2)))
              f.slope f.intercept /
            ssTot ((([((1 : ℚ), (2 : ℚ)), (2, 3)]).filter
              (fun p => decide (0 < p.2))).map (fun p => (p.1, (fun q : ℚ => q) p.2)))
        else 0) ∧
      f.n = (([((1 : ℚ), (2 : ℚ)), (2, 3)]).filter (fun p => decide (0 < p.2))).length ∧
      (Dxx ((([((1 : ℚ), (2 : ℚ)), (2, 3)]).filter
          (fun p => decide (0 < p.2))).map (fun p => (p.1, (fun q : ℚ => q) p.2))) ≠ 0 →
        ∀ a b : ℚ,
          ssRes ((([((1 : ℚ), (2 : ℚ)), (2, 3)]).filter
              (fun p => decide (0 < p.2))).map (fun p => (p.1, (fun q : ℚ => q) p.2)))
              f.slope f.intercept ≤
            ssRes ((([((1 : ℚ), (2 : ℚ)), (2, 3)]).filter
              (fun p => decide (0 < p.2))).map (fun p => (p.1, (fun q : ℚ => q) p.2)))
              a b)) :=
  ⟨by norm_num [List.filter],
    (exponential_fit_logspace (fun q => q) [((1 : ℚ), (2 : ℚ)), (2, 3)]).2
      (by norm_num [List.filter])⟩

end MonitorTool
